import Mathlib

/-!
Verification of the alteration engine in
`crypto_tools/tokentax_csv_consolidate.py`.

Shallow embedding conventions:
* Python `Decimal` amounts are modelled as `ℚ` values; constructing a
  `Decimal` from an input string is exact, but every arithmetic operation
  under the default context rounds its exact result to 28 significant digits
  with half-even rounding.  `decimalRound` models that rounding step;
  division (the only arithmetic in the trade fan-out) is `decimalDivide`,
  and the merge accumulation rounds after each addition or subtraction via
  `decimalRound`, as the `+=`/`-=` on `Decimal` do.
* Python `datetime` values are modelled by `Timestamp`, keeping the
  whole-second part and the microsecond part separately; the source compares
  timestamps after `replace(microsecond=0)`, i.e. on the whole-second part.
* Functions that `raise` in Python return `Except EngineError`; each `raise`
  site is mapped to the error-taxonomy constructor matching its message.
* In the source, `transaction.fee_amount != ""` and
  `transaction.usd_equivalent != ""` compare a `Decimal` to a string and are
  therefore always true; the embedded predicates keep only the live conjunct.
* The pydantic pattern class allows the three currency/exchange matchers to be
  absent; the matcher function also guards `transaction_type` with
  `is not None`, so the embedded pattern makes all four fields optional.
-/

attribute [local semireducible] Rat.add Rat.mul Rat.sub Rat.inv Rat.ofScientific

set_option maxRecDepth 8000

/-- Fuel-driven digit counter: `digitCountFuel f n` is the number of decimal
digits of `n` as long as the fuel `f` covers the recursion depth. -/
def digitCountFuel : ℕ → ℕ → ℕ
  | 0, _ => 0
  | f + 1, n => if n < 10 then 1 else digitCountFuel f (n / 10) + 1

/-- Number of decimal digits of a positive natural number (`n` itself is more
than enough fuel, the recursion divides by ten each step). -/
def digitCount (n : ℕ) : ℕ := digitCountFuel n n

/-- Round a rational to the nearest integer, ties to the even neighbour, as
Python's `ROUND_HALF_EVEN`. -/
def roundHalfEven (x : ℚ) : ℤ :=
  let f := ⌊x⌋
  let r := x - Rat.divInt f 1
  if r < Rat.divInt 1 2 then f
  else if Rat.divInt 1 2 < r then f + 1
  else if f % 2 = 0 then f else f + 1

/-- The rational `10 ^ z` for an integer exponent. -/
def qpow10 (z : ℤ) : ℚ :=
  if 0 ≤ z then Rat.divInt (Int.ofNat (10 ^ z.toNat)) 1
  else Rat.divInt 1 (Int.ofNat (10 ^ (-z).toNat))

/-- For a positive rational `q`, the unique `e` with `10 ^ e ≤ q < 10 ^ (e+1)`
(the decimal exponent of the leading digit). -/
def qMagnitude (q : ℚ) : ℤ :=
  let n := q.num.natAbs
  let d := q.den
  let a := digitCount n - 1
  let b := digitCount d - 1
  if d * 10 ^ a ≤ n * 10 ^ b then Int.ofNat a - Int.ofNat b
  else Int.ofNat a - Int.ofNat b - 1

/-- Precision of Python's default decimal context. -/
def decimalPrec : ℕ := 28

/-- Division as performed by Python's `decimal` module under the default
context: the exact quotient rounded to 28 significant digits, half-even.
The source never divides by zero (divisors are nonempty list lengths), so the
zero-divisor value is arbitrary. -/
def decimalDivide (x y : ℚ) : ℚ :=
  if y = 0 then 0
  else
    let q := x / y
    if q = 0 then 0
    else
      let s : ℚ := if q < 0 then -1 else 1
      let p := |q|
      let e := qMagnitude p
      let scale : ℤ := Int.ofNat decimalPrec - 1 - e
      s * Rat.divInt (roundHalfEven (p * qpow10 scale)) 1 * qpow10 (-scale)

/-- Rounding of an exact arithmetic result to the precision of Python's
default decimal context: 28 significant digits, half-even.  Addition and
subtraction of `Decimal` values apply this to their exact sum. -/
def decimalRound (x : ℚ) : ℚ :=
  if x = 0 then 0
  else
    let s : ℚ := if x < 0 then -1 else 1
    let p := |x|
    let e := qMagnitude p
    let scale : ℤ := Int.ofNat decimalPrec - 1 - e
    s * Rat.divInt (roundHalfEven (p * qpow10 scale)) 1 * qpow10 (-scale)

/-- Transaction types accepted by TokenTax (`TokenTaxTransactionType`). -/
inductive TokenTaxTransactionType where
  | trade
  | income
  | airdrop
  | borrow
  | deposit
  | fork
  | gift
  | lost
  | migration
  | mining
  | repay
  | spend
  | staking
  | stolen
  | withdrawal
deriving DecidableEq, Repr

/-- The string value of each enum member, as in the Python `enum.Enum`. -/
def TokenTaxTransactionType.value : TokenTaxTransactionType → String
  | .trade => "Trade"
  | .income => "Income"
  | .airdrop => "Airdrop"
  | .borrow => "Borrow"
  | .deposit => "Deposit"
  | .fork => "Fork"
  | .gift => "Gift"
  | .lost => "Lost"
  | .migration => "Migration"
  | .mining => "Mining"
  | .repay => "Repay"
  | .spend => "Spend"
  | .staking => "Staking"
  | .stolen => "Stolen"
  | .withdrawal => "Withdrawal"

/-- Lookup of an enum member from its string value, as the Python enum
constructor `TokenTaxTransactionType(s)`; `none` models `ValueError`. -/
def TokenTaxTransactionType.fromValue : String → Option TokenTaxTransactionType
  | "Trade" => some .trade
  | "Income" => some .income
  | "Airdrop" => some .airdrop
  | "Borrow" => some .borrow
  | "Deposit" => some .deposit
  | "Fork" => some .fork
  | "Gift" => some .gift
  | "Lost" => some .lost
  | "Migration" => some .migration
  | "Mining" => some .mining
  | "Repay" => some .repay
  | "Spend" => some .spend
  | "Staking" => some .staking
  | "Stolen" => some .stolen
  | "Withdrawal" => some .withdrawal
  | _ => none

/-- Model of a Python `datetime`: the whole-second part (seconds since an
arbitrary epoch) and the microsecond part.  `replace(microsecond=0)` equality
is equality of the `whole` fields. -/
structure Timestamp where
  whole : ℤ
  micro : ℕ
deriving DecidableEq, Repr

/-- The pieces of the Exchange ID information (`ExchangeID`). -/
structure ExchangeID where
  transaction_hash : String
  transaction_suffix : List String
deriving DecidableEq, Repr

/-- A transaction entry of the CSV (`TokenTaxTransaction`). -/
structure TokenTaxTransaction where
  transaction_type : TokenTaxTransactionType
  buy_amount : ℚ
  buy_currency : String
  sell_amount : ℚ
  sell_currency : String
  fee_amount : ℚ
  fee_currency : String
  exchange : String
  exchange_id : ExchangeID
  group : String
  import_name : String
  comment : String
  date : Timestamp
  usd_equivalent : ℚ
  updated_at : Timestamp
deriving DecidableEq, Repr

/-- One rule pattern (`AlterationTransactionPattern`); an absent field is a
wildcard as far as the matcher function is concerned. -/
structure AlterationTransactionPattern where
  transaction_type : Option String
  buy_currency : Option String
  sell_currency : Option String
  exchange : Option String
deriving DecidableEq, Repr

/-- Error taxonomy for the `raise` sites of the engine. -/
inductive EngineError where
  | ambiguousSource
  | inconsistentGroup
  | unsupportedShape
  | typeConstraint
  | emptyMerge
  | noMergeable
  | invalidType
deriving DecidableEq, Repr

/-- Mirror of `compare_tokentax_transaction_to_alteration_tx_pattern`.
The accumulator threads `common_elements`; `none` models the early
`return False` paths.  Note that a set-but-mismatching `exchange` does not
return `False` in the source: it merely fails to bump the counter. -/
def compareTokentaxTransactionToAlterationTxPattern
    (t : TokenTaxTransaction) (p : AlterationTransactionPattern) : Bool :=
  let c1 : Option ℕ :=
    match p.transaction_type with
    | none => some 0
    | some s => if t.transaction_type.value = s then some 1 else none
  let c2 : Option ℕ :=
    match c1 with
    | none => none
    | some c =>
      match p.buy_currency with
      | none => some c
      | some s => if t.buy_currency = s then some (c + 1) else none
  let c3 : Option ℕ :=
    match c2 with
    | none => none
    | some c =>
      match p.sell_currency with
      | none => some c
      | some s => if t.sell_currency = s then some (c + 1) else none
  let c4 : Option ℕ :=
    match c3 with
    | none => none
    | some c =>
      match p.exchange with
      | none => some c
      | some s => if t.exchange = s then some (c + 1) else some c
  match c4 with
  | none => false
  | some c => decide (c ≠ 0)

/-- The pattern with every field absent. -/
def allWildcardPattern : AlterationTransactionPattern :=
  { transaction_type := none, buy_currency := none, sell_currency := none,
    exchange := none }

/-- A sample record used for concrete counterexamples and witnesses. -/
def baseTransaction : TokenTaxTransaction :=
  { transaction_type := .deposit
    buy_amount := 0
    buy_currency := ""
    sell_amount := 0
    sell_currency := ""
    fee_amount := 0
    fee_currency := ""
    exchange := "EX"
    exchange_id := { transaction_hash := "h1", transaction_suffix := [] }
    group := ""
    import_name := ""
    comment := ""
    date := { whole := 0, micro := 0 }
    usd_equivalent := 0
    updated_at := { whole := 0, micro := 0 } }

/-- A pattern whose type matches `baseTransaction` but whose exchange does
not. -/
def exchangeMismatchPattern : AlterationTransactionPattern :=
  { transaction_type := some "Deposit", buy_currency := none,
    sell_currency := none, exchange := some "OTHER" }

/-- Mirror of `find_fees_from_transaction_list`: a record is a fee source iff
its fee currency is nonempty (the source's `fee_amount != ""` conjunct
compares a decimal to a string and is always true). -/
def feeSourcePred (t : TokenTaxTransaction) : Bool :=
  decide (t.fee_currency ≠ "")

/-- A record is a USD-equivalent source iff its USD equivalent is nonzero
(the source's `usd_equivalent != ""` conjunct is always true). -/
def usdSourcePred (t : TokenTaxTransaction) : Bool :=
  decide (t.usd_equivalent ≠ 0)

/-- Mirror of `find_fees_from_transaction_list`. -/
def findFeesFromTransactionList (l : List TokenTaxTransaction) :
    Except EngineError (ℚ × String) :=
  match l.filter feeSourcePred with
  | [] => .ok (0, "")
  | [t] => .ok (t.fee_amount, t.fee_currency)
  | _ => .error .ambiguousSource

/-- Mirror of `find_usd_equivalent_from_transaction_list`. -/
def findUsdEquivalentFromTransactionList (l : List TokenTaxTransaction) :
    Except EngineError ℚ :=
  match l.filter usdSourcePred with
  | [] => .ok 0
  | [t] => .ok t.usd_equivalent
  | _ => .error .ambiguousSource

/-- The seven consistency checks of
`ensure_common_elements_are_identical_in_transaction_list`, each comparing
against the first record; timestamps are compared on the whole-second part. -/
def commonElementsConsistent (l : List TokenTaxTransaction) : Bool :=
  match l with
  | [] => true
  | t0 :: _ =>
    l.all (fun t => decide (t.exchange = t0.exchange)) &&
    l.all (fun t =>
      decide (t.exchange_id.transaction_hash = t0.exchange_id.transaction_hash)) &&
    l.all (fun t => decide (t.group = t0.group)) &&
    l.all (fun t => decide (t.import_name = t0.import_name)) &&
    l.all (fun t => decide (t.comment = t0.comment)) &&
    l.all (fun t => decide (t.date.whole = t0.date.whole)) &&
    l.all (fun t => decide (t.updated_at.whole = t0.updated_at.whole))

/-- Mirror of `ensure_common_elements_are_identical_in_transaction_list`. -/
def ensureCommonElementsAreIdenticalInTransactionList
    (l : List TokenTaxTransaction) : Except EngineError Unit :=
  if commonElementsConsistent l then .ok () else .error .inconsistentGroup

/-- A record with a buy leg and no sell leg. -/
def isBuyOnly (t : TokenTaxTransaction) : Bool :=
  decide (t.buy_currency ≠ "") && decide (t.sell_currency = "")

/-- A record with a sell leg and no buy leg. -/
def isSellOnly (t : TokenTaxTransaction) : Bool :=
  decide (t.buy_currency = "") && decide (t.sell_currency ≠ "")

/-- Mirror of `separate_buy_from_sell_transactions`: split into buy-only and
sell-only sublists, failing on the first record that is neither. -/
def separateBuyFromSellTransactions :
    List TokenTaxTransaction →
      Except EngineError (List TokenTaxTransaction × List TokenTaxTransaction)
  | [] => .ok ([], [])
  | t :: ts =>
    if isBuyOnly t then
      match separateBuyFromSellTransactions ts with
      | .error e => .error e
      | .ok (bs, ss) => .ok (t :: bs, ss)
    else if isSellOnly t then
      match separateBuyFromSellTransactions ts with
      | .error e => .error e
      | .ok (bs, ss) => .ok (bs, t :: ss)
    else .error .unsupportedShape

/-- Mirror of `separate_transactions_by_containing`. -/
def separateTransactionsByContaining (l : List TokenTaxTransaction)
    (tokens : List String) :
    List TokenTaxTransaction × List TokenTaxTransaction :=
  (l.filter (fun t =>
      decide (t.buy_currency ∈ tokens) || decide (t.sell_currency ∈ tokens)),
   l.filter (fun t =>
      !(decide (t.buy_currency ∈ tokens) || decide (t.sell_currency ∈ tokens))))

/-- The single Trade built in the one-buy/one-sell branch of
`convert_to_trades`. -/
def mkTradeFromPair (b s : TokenTaxTransaction) (fee_amount : ℚ)
    (fee_currency : String) (usd : ℚ) : TokenTaxTransaction :=
  { transaction_type := .trade
    buy_amount := b.buy_amount
    buy_currency := b.buy_currency
    sell_amount := s.sell_amount
    sell_currency := s.sell_currency
    fee_amount := fee_amount
    fee_currency := fee_currency
    exchange := b.exchange
    exchange_id := b.exchange_id
    group := b.group
    import_name := b.import_name
    comment := b.comment
    date := b.date
    usd_equivalent := usd
    updated_at := b.updated_at }

/-- One Trade of the one-buy/many-sells fan-out branch of
`convert_to_trades`: the buy amount, fee and USD equivalent are the split
values, metadata comes from the buy record, the sell leg from `s`. -/
def mkSplitBuyTrade (b : TokenTaxTransaction) (fee_currency : String)
    (split_buy split_fee split_usd : ℚ) (s : TokenTaxTransaction) :
    TokenTaxTransaction :=
  { transaction_type := .trade
    buy_amount := split_buy
    buy_currency := b.buy_currency
    sell_amount := s.sell_amount
    sell_currency := s.sell_currency
    fee_amount := split_fee
    fee_currency := fee_currency
    exchange := b.exchange
    exchange_id := b.exchange_id
    group := b.group
    import_name := b.import_name
    comment := b.comment
    date := b.date
    usd_equivalent := split_usd
    updated_at := b.updated_at }

/-- One Trade of the many-buys/one-sell branch of `convert_to_trades`: the
sell amount and fee are the split values, metadata comes from the sell
record, and the USD equivalent is the buy record's own. -/
def mkSplitSellTrade (s : TokenTaxTransaction) (fee_currency : String)
    (split_sell split_fee : ℚ) (b : TokenTaxTransaction) :
    TokenTaxTransaction :=
  { transaction_type := .trade
    buy_amount := b.buy_amount
    buy_currency := b.buy_currency
    sell_amount := split_sell
    sell_currency := s.sell_currency
    fee_amount := split_fee
    fee_currency := fee_currency
    exchange := s.exchange
    exchange_id := s.exchange_id
    group := s.group
    import_name := s.import_name
    comment := s.comment
    date := s.date
    usd_equivalent := b.usd_equivalent
    updated_at := s.updated_at }

/-- The shape dispatch of `convert_to_trades` on the separated buy-only and
sell-only lists; `l` is the whole group, consulted for the USD equivalent in
the two branches with exactly one buy-only record. -/
def convertSeparatedToTrades (l : List TokenTaxTransaction) (fee_amount : ℚ)
    (fee_currency : String) (buy_only_list sell_only_list : List TokenTaxTransaction) :
    Except EngineError (List TokenTaxTransaction) :=
  match buy_only_list, sell_only_list with
  | [b], [s] =>
    match findUsdEquivalentFromTransactionList l with
    | .error e => .error e
    | .ok usd => .ok [mkTradeFromPair b s fee_amount fee_currency usd]
  | [b], s1 :: s2 :: srest =>
    match findUsdEquivalentFromTransactionList l with
    | .error e => .error e
    | .ok usd =>
      let n : ℕ := (s1 :: s2 :: srest).length
      .ok ((s1 :: s2 :: srest).map
        (mkSplitBuyTrade b fee_currency (decimalDivide b.buy_amount n)
          (decimalDivide fee_amount n) (decimalDivide usd n)))
  | b1 :: b2 :: brest, [s] =>
    let n : ℕ := (b1 :: b2 :: brest).length
    .ok ((b1 :: b2 :: brest).map
      (mkSplitSellTrade s fee_currency (decimalDivide s.sell_amount n)
        (decimalDivide fee_amount n)))
  | _, _ => .error .unsupportedShape

/-- Mirror of `convert_to_trades`: fee lookup, consistency check, buy/sell
separation, then the three supported shapes; USD-equivalent lookup happens
only in the two branches with exactly one buy-only record. -/
def convertToTrades (l : List TokenTaxTransaction) :
    Except EngineError (List TokenTaxTransaction) :=
  match findFeesFromTransactionList l with
  | .error e => .error e
  | .ok (fee_amount, fee_currency) =>
    match ensureCommonElementsAreIdenticalInTransactionList l with
    | .error e => .error e
    | .ok _ =>
      match separateBuyFromSellTransactions l with
      | .error e => .error e
      | .ok (buy_only_list, sell_only_list) =>
        convertSeparatedToTrades l fee_amount fee_currency
          buy_only_list sell_only_list

/-- A buy-only record template for concrete test groups. -/
def buyRecord (amt : ℚ) (cur : String) (usd : ℚ) : TokenTaxTransaction :=
  { baseTransaction with
      transaction_type := .deposit
      buy_amount := amt
      buy_currency := cur
      usd_equivalent := usd }

/-- A sell-only record template for concrete test groups. -/
def sellRecord (amt : ℚ) (cur : String) : TokenTaxTransaction :=
  { baseTransaction with
      transaction_type := .withdrawal
      sell_amount := amt
      sell_currency := cur }

/-- A record whose fee fields are populated, used as a concrete fee source. -/
def feeRecord : TokenTaxTransaction :=
  { baseTransaction with fee_amount := 1, fee_currency := "USD" }

/-- The concrete group refuting the exact-sum part of C5: one buy of 1 USD
fanned out over three sells of 3 tokens each. -/
def claim5CexGroup : List TokenTaxTransaction :=
  [buyRecord 1 "USD" 0, sellRecord 3 "T1", sellRecord 3 "T2",
    sellRecord 3 "T3"]

/-- The Scenario-B style witness group: one buy of 9 USD, two sells. -/
def claim5WitnessGroup : List TokenTaxTransaction :=
  [buyRecord 9 "USD" 0, sellRecord 3 "TOK1", sellRecord 3 "TOK2"]

/-- The two split Trades the witness group converts to. -/
def claim5WitnessOutput : List TokenTaxTransaction :=
  [sellRecord 3 "TOK1", sellRecord 3 "TOK2"].map
    (mkSplitBuyTrade (buyRecord 9 "USD" 0) "" (decimalDivide 9 2)
      (decimalDivide 0 2) (decimalDivide 0 2))

/-- Removal of the first element equal to `p`, as Python's `list.remove`. -/
def removeFirstEqual (p : AlterationTransactionPattern) :
    List AlterationTransactionPattern → List AlterationTransactionPattern
  | [] => []
  | q :: qs => if q = p then qs else q :: removeFirstEqual p qs

/-- Mirror of `remove_transaction_from_tx_pattern_list`: scan the patterns in
order; when the first matching one is found, `list.remove` drops the first
element equal to it and the call reports success.  `some remaining` models
the `True` return with the mutated list, `none` models `False`. -/
def removeTransactionFromTxPatternList (t : TokenTaxTransaction)
    (tx_patterns : List AlterationTransactionPattern) :
    Option (List AlterationTransactionPattern) :=
  match tx_patterns.find?
      (fun p => compareTokentaxTransactionToAlterationTxPattern t p) with
  | some p => some (removeFirstEqual p tx_patterns)
  | none => none

/-- Mirror of `all_transactions_in_tx_pattern_list`: the Python function
works on a deep copy of the patterns, so the embedded version threads the
shrinking pattern list explicitly and returns only the boolean. -/
def allTransactionsInTxPatternList :
    List TokenTaxTransaction → List AlterationTransactionPattern → Bool
  | [], _ => true
  | t :: ts, ps =>
    match removeTransactionFromTxPatternList t ps with
    | none => false
    | some remaining => allTransactionsInTxPatternList ts remaining

/-- Spec-side greedy consumption of one record: scan the remaining patterns
in order and bind to (and remove) the first pattern the record matches. -/
def greedyConsume (t : TokenTaxTransaction) :
    List AlterationTransactionPattern →
      Option (List AlterationTransactionPattern)
  | [] => none
  | p :: ps =>
    if compareTokentaxTransactionToAlterationTxPattern t p then some ps
    else (greedyConsume t ps).map (fun ps2 => p :: ps2)

/-- Spec-side greedy group match: iterate records in input order, each
consuming the first still-unconsumed pattern it matches; fail as soon as a
record finds no remaining matching pattern. -/
def greedyGroupMatch :
    List TokenTaxTransaction → List AlterationTransactionPattern → Bool
  | [], _ => true
  | t :: ts, ps =>
    match greedyConsume t ps with
    | none => false
    | some remaining => greedyGroupMatch ts remaining

/-- The tagged union of the ten alteration actions, one constructor per
pydantic `AlterationAction…` class, each carrying its own parameters. -/
inductive AlterationAction where
  | do_nothing
  | convert_to_trades
  | convert_to_single_stake_trades (unstaked_token staked_token : String)
  | convert_to_migrations (rewards : Option (List String))
  | convert_to_staking
  | convert_to_stake_migration (unstaked_token staked_token : String)
      (rewards : Option (List String))
  | keep_only_types (keeps : List String)
  | rename_to (token_name rename_to : String)
  | remove_containing (removes : List String)
  | merge_same_currency (merge_currency : String)
deriving DecidableEq, Repr

/-- One configured rule (`Alteration`): optional hash pin, the ordered
pattern list, the ordered action list. -/
structure Alteration where
  tx_hash : Option String
  tx_patterns : List AlterationTransactionPattern
  actions : List AlterationAction
deriving DecidableEq, Repr

/-- The rule document (`AlterationsMapping`). -/
structure AlterationsMapping where
  alterations : List Alteration
deriving DecidableEq, Repr

/-- The loop body of `match_transaction_list_to_alteration` over the
remaining rules. -/
def matchTransactionListToAlterationGo (transaction_hash : String)
    (transaction_list : List TokenTaxTransaction) :
    List Alteration → Option Alteration
  | [] => none
  | alteration :: rest =>
    if alteration.tx_hash.isSome ∧ alteration.tx_hash ≠ some transaction_hash
    then matchTransactionListToAlterationGo transaction_hash transaction_list rest
    else if alteration.tx_patterns.length = transaction_list.length
        ∧ allTransactionsInTxPatternList transaction_list
            alteration.tx_patterns = true
    then some alteration
    else matchTransactionListToAlterationGo transaction_hash transaction_list rest

/-- Mirror of `match_transaction_list_to_alteration`. -/
def matchTransactionListToAlteration (alterations_mapping : AlterationsMapping)
    (transaction_hash : String)
    (transaction_list : List TokenTaxTransaction) : Option Alteration :=
  matchTransactionListToAlterationGo transaction_hash transaction_list
    alterations_mapping.alterations

/-- A rule applies to a group when its pin is unset or equals the group
hash, its pattern count equals the group size, and the greedy group match
succeeds. -/
def alterationApplies (transaction_hash : String)
    (transaction_list : List TokenTaxTransaction) (a : Alteration) : Bool :=
  decide ((a.tx_hash = none ∨ a.tx_hash = some transaction_hash)
    ∧ a.tx_patterns.length = transaction_list.length
    ∧ allTransactionsInTxPatternList transaction_list a.tx_patterns = true)

/-- The rule used by the concrete resolver witness: unpinned, one pattern
matching any Deposit, no actions. -/
def depositPatternAlteration : Alteration :=
  { tx_hash := none
    tx_patterns := [{ transaction_type := some "Deposit", buy_currency := none,
                      sell_currency := none, exchange := none }]
    actions := [] }

/-- A record touches the merge currency when either leg is in it. -/
def touchesCurrency (merge_currency : String) (t : TokenTaxTransaction) : Bool :=
  decide (t.buy_currency = merge_currency)
    || decide (t.sell_currency = merge_currency)

/-- The signed summation loop of `MergeSameCurrency`: buy amounts add,
sell amounts subtract, a record with both amounts nonzero aborts, a record
with both zero contributes nothing.  Each `+=`/`-=` on a `Decimal` rounds
its exact result to the context precision, modelled by `decimalRound`. -/
def netMergeLoop : List TokenTaxTransaction → ℚ → Except EngineError ℚ
  | [], acc => .ok acc
  | t :: ts, acc =>
    if t.buy_amount ≠ 0 ∧ t.sell_amount ≠ 0 then .error .unsupportedShape
    else if t.buy_amount ≠ 0 then
      netMergeLoop ts (decimalRound (acc + t.buy_amount))
    else if t.sell_amount ≠ 0 then
      netMergeLoop ts (decimalRound (acc - t.sell_amount))
    else netMergeLoop ts acc

/-- The synthetic Deposit emitted when the merge nets positive. -/
def mkMergeDeposit (merge_currency : String) (net fee_amount : ℚ)
    (fee_currency : String) (usd : ℚ) (m0 : TokenTaxTransaction) :
    TokenTaxTransaction :=
  { transaction_type := .deposit
    buy_amount := net
    buy_currency := merge_currency
    sell_amount := 0
    sell_currency := ""
    fee_amount := fee_amount
    fee_currency := fee_currency
    exchange := m0.exchange
    exchange_id := m0.exchange_id
    group := m0.group
    import_name := m0.import_name
    comment := m0.comment
    date := m0.date
    usd_equivalent := usd
    updated_at := m0.updated_at }

/-- The synthetic Withdrawal emitted when the merge nets negative; its sell
amount is the absolute value of the net. -/
def mkMergeWithdrawal (merge_currency : String) (net fee_amount : ℚ)
    (fee_currency : String) (usd : ℚ) (m0 : TokenTaxTransaction) :
    TokenTaxTransaction :=
  { transaction_type := .withdrawal
    buy_amount := 0
    buy_currency := ""
    sell_amount := |net|
    sell_currency := merge_currency
    fee_amount := fee_amount
    fee_currency := fee_currency
    exchange := m0.exchange
    exchange_id := m0.exchange_id
    group := m0.group
    import_name := m0.import_name
    comment := m0.comment
    date := m0.date
    usd_equivalent := usd
    updated_at := m0.updated_at }

/-- Mirror of `AlterationActionMergeSameCurrency.perform_on_transaction_list`:
partition by the merge currency, reject an empty mergeable set, look up the
fee and USD source among the mergeables, check their shared fields, sum the
signed amounts, then emit one Deposit or Withdrawal after the passthrough
records (which the source deep-copies, hence value-identical). -/
def mergeSameCurrency (merge_currency : String)
    (l : List TokenTaxTransaction) :
    Except EngineError (List TokenTaxTransaction) :=
  let mergable_transaction_list := l.filter (touchesCurrency merge_currency)
  let modified_transaction_list :=
    l.filter (fun t => !(touchesCurrency merge_currency t))
  match mergable_transaction_list with
  | [] => .error .noMergeable
  | m0 :: _ =>
    match findFeesFromTransactionList mergable_transaction_list with
    | .error e => .error e
    | .ok (fee_amount, fee_currency) =>
      match findUsdEquivalentFromTransactionList mergable_transaction_list with
      | .error e => .error e
      | .ok usd =>
        match ensureCommonElementsAreIdenticalInTransactionList
            mergable_transaction_list with
        | .error e => .error e
        | .ok _ =>
          match netMergeLoop mergable_transaction_list 0 with
          | .error e => .error e
          | .ok net =>
            if 0 < net then
              .ok (modified_transaction_list
                ++ [mkMergeDeposit merge_currency net fee_amount fee_currency
                      usd m0])
            else if net < 0 then
              .ok (modified_transaction_list
                ++ [mkMergeWithdrawal merge_currency net fee_amount
                      fee_currency usd m0])
            else .error .emptyMerge

/-- The Scenario-D style witness group: buy 10 XYZ and sell 4 XYZ. -/
def claim8WitnessGroup : List TokenTaxTransaction :=
  [buyRecord 10 "XYZ" 0, sellRecord 4 "XYZ"]

/-- A merge group whose exact signed sum is 1 but whose 28-digit decimal
accumulation cancels to zero: adding 1 to 1E+28 rounds back to 1E+28. -/
def highPrecisionMergeGroup : List TokenTaxTransaction :=
  [buyRecord 10000000000000000000000000000 "XYZ" 0, buyRecord 1 "XYZ" 0,
    sellRecord 10000000000000000000000000000 "XYZ"]

/-- A record already typed Trade, relabelled directly by the migration
conversion. -/
def isTradeType (t : TokenTaxTransaction) : Bool :=
  decide (t.transaction_type = .trade)

/-- A non-Trade record with only a buy leg, per the elif-chain of
`convert_to_migrations`. -/
def isNonTradeBuyOnly (t : TokenTaxTransaction) : Bool :=
  decide (t.transaction_type ≠ .trade) && isBuyOnly t

/-- A non-Trade record with only a sell leg. -/
def isNonTradeSellOnly (t : TokenTaxTransaction) : Bool :=
  decide (t.transaction_type ≠ .trade) && isSellOnly t

/-- The single Migration built from the one-buy/one-sell pair. -/
def mkMigrationFromPair (b s : TokenTaxTransaction) (fee_amount : ℚ)
    (fee_currency : String) (usd : ℚ) : TokenTaxTransaction :=
  { transaction_type := .migration
    buy_amount := b.buy_amount
    buy_currency := b.buy_currency
    sell_amount := s.sell_amount
    sell_currency := s.sell_currency
    fee_amount := fee_amount
    fee_currency := fee_currency
    exchange := b.exchange
    exchange_id := b.exchange_id
    group := b.group
    import_name := b.import_name
    comment := b.comment
    date := b.date
    usd_equivalent := usd
    updated_at := b.updated_at }

/-- Mirror of `convert_to_migrations`: fee, USD and consistency checks on the
whole group; records sorted into already-Trade, non-Trade buy-only and
non-Trade sell-only — anything else falls through all branches of the
elif-chain and is dropped; one buy and one sell merge into a Migration, both
sides populated otherwise is an error, and a lopsided or empty split is
silently accepted; Trades are relabelled Migration and appended. -/
def convertToMigrations (l : List TokenTaxTransaction) :
    Except EngineError (List TokenTaxTransaction) :=
  match findFeesFromTransactionList l with
  | .error e => .error e
  | .ok (fee_amount, fee_currency) =>
    match findUsdEquivalentFromTransactionList l with
    | .error e => .error e
    | .ok usd =>
      match ensureCommonElementsAreIdenticalInTransactionList l with
      | .error e => .error e
      | .ok _ =>
        let trade_list := l.filter isTradeType
        let buy_only_list := l.filter isNonTradeBuyOnly
        let sell_only_list := l.filter isNonTradeSellOnly
        match buy_only_list, sell_only_list with
        | [b], [s] =>
          .ok (mkMigrationFromPair b s fee_amount fee_currency usd
            :: trade_list.map (fun t => { t with transaction_type := .migration }))
        | bl, sl =>
          if bl.length ≠ 0 ∧ sl.length ≠ 0 then .error .unsupportedShape
          else .ok (trade_list.map
            (fun t => { t with transaction_type := .migration }))

/-- The concrete group refuting C9's no-error part: two non-Trade buy-only
records, no sell-only record, but inconsistent exchanges. -/
def inconsistentBuyPair : List TokenTaxTransaction :=
  [buyRecord 1 "AAA" 0,
    { buyRecord 2 "BBB" 0 with exchange := "OTHER" }]

/-- Mirror of `AlterationActionConvertToSingleStakeTrades`: rewrite records
whose buy (first) or sell leg is in the unstaked token into Trades with a
synthetic opposite leg of the same amount in the staked token. -/
def convertToSingleStakeTrades (unstaked_token staked_token : String)
    (l : List TokenTaxTransaction) : List TokenTaxTransaction :=
  l.map (fun t =>
    if t.buy_currency = unstaked_token then
      { t with
          transaction_type := .trade
          sell_amount := t.buy_amount
          sell_currency := staked_token }
    else if t.sell_currency = unstaked_token then
      { t with
          transaction_type := .trade
          buy_amount := t.sell_amount
          buy_currency := staked_token }
    else t)

/-- Mirror of `AlterationActionConvertToStaking`: every record must be a
Deposit, relabelled to Staking; the first non-Deposit aborts. -/
def convertToStakingList :
    List TokenTaxTransaction → Except EngineError (List TokenTaxTransaction)
  | [] => .ok []
  | t :: ts =>
    if t.transaction_type ≠ TokenTaxTransactionType.deposit then
      .error .typeConstraint
    else
      match convertToStakingList ts with
      | .error e => .error e
      | .ok rest => .ok ({ t with transaction_type := .staking } :: rest)

/-- Mirror of `convert_to_stake_migrations`: like the single-stake-trade
rewrite but producing Migrations. -/
def convertToStakeMigrations (unstaked_token staked_token : String)
    (l : List TokenTaxTransaction) : List TokenTaxTransaction :=
  l.map (fun t =>
    if t.buy_currency = unstaked_token then
      { t with
          transaction_type := .migration
          sell_amount := t.buy_amount
          sell_currency := staked_token }
    else if t.sell_currency = unstaked_token then
      { t with
          transaction_type := .migration
          buy_amount := t.sell_amount
          buy_currency := staked_token }
    else t)

/-- Mirror of `keep_transactions_by_type`. -/
def keepTransactionsByType (l : List TokenTaxTransaction)
    (keep_transaction_type_list : List TokenTaxTransactionType) :
    List TokenTaxTransaction :=
  l.filter (fun t => decide (t.transaction_type ∈ keep_transaction_type_list))

/-- The enum conversions of `AlterationActionKeepOnlyTypes`: each configured
string goes through the enum constructor; an unknown name raises. -/
def parseKeepTypes :
    List String → Except EngineError (List TokenTaxTransactionType)
  | [] => .ok []
  | k :: ks =>
    match TokenTaxTransactionType.fromValue k with
    | none => .error .invalidType
    | some ty =>
      match parseKeepTypes ks with
      | .error e => .error e
      | .ok rest => .ok (ty :: rest)

/-- Mirror of `AlterationActionRenameToken`: rewrite the token in both
currency fields of every record. -/
def renameTokenInList (token_name rename_target : String)
    (l : List TokenTaxTransaction) : List TokenTaxTransaction :=
  l.map (fun t =>
    let t1 := if t.buy_currency = token_name
      then { t with buy_currency := rename_target } else t
    if t1.sell_currency = token_name
      then { t1 with sell_currency := rename_target } else t1)

/-- Mirror of `AlterationActionRemoveContaining`. -/
def removeContainingTokens (removes : List String)
    (l : List TokenTaxTransaction) : List TokenTaxTransaction :=
  l.filter (fun t =>
    decide (t.buy_currency ∉ removes) && decide (t.sell_currency ∉ removes))

/-- The staking relabelling of the reward carve-out shared by
`convert_to_migrations` and `convert_to_stake_migration` with `rewards`. -/
def relabelRewardsStaking (l : List TokenTaxTransaction) :
    List TokenTaxTransaction :=
  l.map (fun t => { t with transaction_type := .staking })

/-- Dispatch of `perform_on_transaction_list` over the ten actions. -/
def performOnTransactionList (a : AlterationAction)
    (transaction_list : List TokenTaxTransaction) :
    Except EngineError (List TokenTaxTransaction) :=
  match a with
  | .do_nothing => .ok transaction_list
  | .convert_to_trades => convertToTrades transaction_list
  | .convert_to_single_stake_trades unstaked staked =>
    .ok (convertToSingleStakeTrades unstaked staked transaction_list)
  | .convert_to_migrations rewards =>
    match rewards with
    | none => convertToMigrations transaction_list
    | some rs =>
      let parts := separateTransactionsByContaining transaction_list rs
      match convertToMigrations parts.2 with
      | .error e => .error e
      | .ok migrated => .ok (relabelRewardsStaking parts.1 ++ migrated)
  | .convert_to_staking => convertToStakingList transaction_list
  | .convert_to_stake_migration unstaked staked rewards =>
    match rewards with
    | none => .ok (convertToStakeMigrations unstaked staked transaction_list)
    | some rs =>
      let parts := separateTransactionsByContaining transaction_list rs
      .ok (relabelRewardsStaking parts.1
        ++ convertToStakeMigrations unstaked staked parts.2)
  | .keep_only_types keeps =>
    match parseKeepTypes keeps with
    | .error e => .error e
    | .ok tys => .ok (keepTransactionsByType transaction_list tys)
  | .rename_to token_name rename_target =>
    .ok (renameTokenInList token_name rename_target transaction_list)
  | .remove_containing removes =>
    .ok (removeContainingTokens removes transaction_list)
  | .merge_same_currency merge_currency =>
    mergeSameCurrency merge_currency transaction_list

/-- Sequential application of a rule's actions, each consuming the previous
action's output; the first failure aborts. -/
def applyActions : List AlterationAction → List TokenTaxTransaction →
    Except EngineError (List TokenTaxTransaction)
  | [], l => .ok l
  | a :: rest, l =>
    match performOnTransactionList a l with
    | .error e => .error e
    | .ok l2 => applyActions rest l2

/-- The accumulators of the engine loop in `main`: the output record list and
the three size-keyed histograms. -/
structure EngineState where
  output_transaction_list : List TokenTaxTransaction
  input_transaction_hash_count : ℕ → ℕ
  no_match_transaction_hash_count : ℕ → ℕ
  output_transaction_hash_count : ℕ → ℕ

/-- Increment a size-keyed counter at one size, as the dict pattern
`if size not in d: d[size] = 0; d[size] += 1`. -/
def bumpCount (h : ℕ → ℕ) (s : ℕ) : ℕ → ℕ :=
  fun k => if k = s then h k + 1 else h k

/-- One iteration of the engine loop over a hash group: count the group in
the input histogram; if a rule resolves, count it as output and run the
rule's actions over (a deep copy of) the group, appending the result; with
no rule, a one-record group passes through verbatim and counts as output,
anything else counts as unmatched; an action failure aborts the run. -/
def processTransactionGroup (alterations_mapping : AlterationsMapping)
    (st : EngineState) (grp : String × List TokenTaxTransaction) :
    Except EngineError EngineState :=
  let n := grp.2.length
  let st1 := { st with
    input_transaction_hash_count := bumpCount st.input_transaction_hash_count n }
  match matchTransactionListToAlteration alterations_mapping grp.1 grp.2 with
  | some alteration =>
    let st2 := { st1 with
      output_transaction_hash_count :=
        bumpCount st1.output_transaction_hash_count n }
    match applyActions alteration.actions grp.2 with
    | .error e => .error e
    | .ok modified =>
      .ok { st2 with
        output_transaction_list := st2.output_transaction_list ++ modified }
  | none =>
    if n = 1 then
      .ok { st1 with
        output_transaction_list := st1.output_transaction_list ++ grp.2
        output_transaction_hash_count :=
          bumpCount st1.output_transaction_hash_count n }
    else
      .ok { st1 with
        no_match_transaction_hash_count :=
          bumpCount st1.no_match_transaction_hash_count n }

/-- The engine loop over the remaining groups. -/
def runEngineFrom (alterations_mapping : AlterationsMapping) :
    List (String × List TokenTaxTransaction) → EngineState →
      Except EngineError EngineState
  | [], st => .ok st
  | grp :: rest, st =>
    match processTransactionGroup alterations_mapping st grp with
    | .error e => .error e
    | .ok st2 => runEngineFrom alterations_mapping rest st2

/-- The engine state before any group is processed. -/
def initialEngineState : EngineState :=
  { output_transaction_list := []
    input_transaction_hash_count := fun _ => 0
    no_match_transaction_hash_count := fun _ => 0
    output_transaction_hash_count := fun _ => 0 }

/-- The engine run of `main` over the identifier-hash groups in
first-appearance order. -/
def runEngine (alterations_mapping : AlterationsMapping)
    (groups : List (String × List TokenTaxTransaction)) :
    Except EngineError EngineState :=
  runEngineFrom alterations_mapping groups initialEngineState

/-- The histogram partition invariant. -/
def histogramsPartition (st : EngineState) : Prop :=
  ∀ s : ℕ, st.input_transaction_hash_count s
    = st.no_match_transaction_hash_count s
      + st.output_transaction_hash_count s

/-- An unpinned single-pattern rule relabelling Deposits to Staking, used to
refute the hash-pinned-only reading of the size-one passthrough. -/
def stakingRuleMapping : AlterationsMapping :=
  ⟨[{ depositPatternAlteration with actions := [.convert_to_staking] }]⟩

/-- The base record relabelled to Staking. -/
def stakedBaseTransaction : TokenTaxTransaction :=
  { baseTransaction with transaction_type := .staking }

/-- C1 counterexample: the all-wildcard pattern does not match a concrete
record, contradicting the claim that it matches every record. -/
theorem claim1_counterexample :
    compareTokentaxTransactionToAlterationTxPattern baseTransaction
      allWildcardPattern = false := by
  decide

/-- C1 (amended): for every record, the single-record match against the
all-wildcard pattern returns false, because the matcher requires at least one
non-wildcard field to have matched. -/
theorem claim1_wildcard_pattern_never_matches (t : TokenTaxTransaction) :
    compareTokentaxTransactionToAlterationTxPattern t allWildcardPattern
      = false := by
  rfl

/-- C2 counterexample: the match succeeds although the pattern's non-wildcard
`exchange` field differs from the record's exchange, contradicting the
claimed only-if direction. -/
theorem claim2_counterexample :
    compareTokentaxTransactionToAlterationTxPattern baseTransaction
        exchangeMismatchPattern = true
      ∧ exchangeMismatchPattern.exchange = some "OTHER"
      ∧ baseTransaction.exchange ≠ "OTHER" := by
  refine ⟨by decide, by decide, by decide⟩

/-- C2 (amended): the single-record match returns true iff the type,
buy-currency and sell-currency fields each match whenever they are set, and at
least one of the four fields is set and matches; a set exchange field that
differs does not cause failure, it only fails to count as a match. -/
theorem claim2_match_characterisation (t : TokenTaxTransaction)
    (p : AlterationTransactionPattern) :
    compareTokentaxTransactionToAlterationTxPattern t p = true ↔
      (p.transaction_type = none
          ∨ p.transaction_type = some t.transaction_type.value)
        ∧ (p.buy_currency = none ∨ p.buy_currency = some t.buy_currency)
        ∧ (p.sell_currency = none ∨ p.sell_currency = some t.sell_currency)
        ∧ (p.transaction_type = some t.transaction_type.value
            ∨ p.buy_currency = some t.buy_currency
            ∨ p.sell_currency = some t.sell_currency
            ∨ p.exchange = some t.exchange) := by
  obtain ⟨pt, pb, ps, pe⟩ := p
  rcases pt with _ | s1 <;> rcases pb with _ | s2 <;>
    rcases ps with _ | s3 <;> rcases pe with _ | s4 <;>
    simp only [compareTokentaxTransactionToAlterationTxPattern] <;>
    (try split_ifs) <;> simp_all <;> try tauto

/-- With two or more fee sources the fee lookup fails as ambiguous. -/
lemma findFees_error_of_two_le (l : List TokenTaxTransaction)
    (h : 2 ≤ (l.filter feeSourcePred).length) :
    findFeesFromTransactionList l = .error .ambiguousSource := by
  unfold findFeesFromTransactionList
  rcases hf : l.filter feeSourcePred with _ | ⟨t, _ | ⟨t2, ts⟩⟩
  · rw [hf] at h; simp at h
  · rw [hf] at h; simp at h
  · rfl

/-- With at most one fee source the fee lookup succeeds. -/
lemma findFees_ok_of_le_one (l : List TokenTaxTransaction)
    (h : (l.filter feeSourcePred).length ≤ 1) :
    ∃ v, findFeesFromTransactionList l = .ok v := by
  unfold findFeesFromTransactionList
  rcases hf : l.filter feeSourcePred with _ | ⟨t, _ | ⟨t2, ts⟩⟩
  · exact ⟨(0, ""), rfl⟩
  · exact ⟨(t.fee_amount, t.fee_currency), rfl⟩
  · rw [hf] at h; simp at h

/-- With two or more USD-equivalent sources the lookup fails as ambiguous. -/
lemma findUsd_error_of_two_le (l : List TokenTaxTransaction)
    (h : 2 ≤ (l.filter usdSourcePred).length) :
    findUsdEquivalentFromTransactionList l = .error .ambiguousSource := by
  unfold findUsdEquivalentFromTransactionList
  rcases hf : l.filter usdSourcePred with _ | ⟨t, _ | ⟨t2, ts⟩⟩
  · rw [hf] at h; simp at h
  · rw [hf] at h; simp at h
  · rfl

/-- With at most one USD-equivalent source the lookup succeeds. -/
lemma findUsd_ok_of_le_one (l : List TokenTaxTransaction)
    (h : (l.filter usdSourcePred).length ≤ 1) :
    ∃ v, findUsdEquivalentFromTransactionList l = .ok v := by
  unfold findUsdEquivalentFromTransactionList
  rcases hf : l.filter usdSourcePred with _ | ⟨t, _ | ⟨t2, ts⟩⟩
  · exact ⟨0, rfl⟩
  · exact ⟨t.usd_equivalent, rfl⟩
  · rw [hf] at h; simp at h

/-- A buy-only record is not sell-only. -/
lemma not_sellOnly_of_buyOnly (t : TokenTaxTransaction)
    (h : isBuyOnly t = true) : isSellOnly t = false := by
  simp only [isBuyOnly, Bool.and_eq_true, decide_eq_true_eq] at h
  simp [isSellOnly, h.1]

/-- The buy/sell separation either rejects a group containing a record with
both or neither leg, or returns exactly the buy-only and sell-only
sublists in order. -/
lemma separateBuyFromSell_spec (l : List TokenTaxTransaction) :
    (l.all (fun t => isBuyOnly t || isSellOnly t) = true
      ∧ separateBuyFromSellTransactions l
          = .ok (l.filter isBuyOnly, l.filter isSellOnly))
    ∨ (l.all (fun t => isBuyOnly t || isSellOnly t) = false
      ∧ separateBuyFromSellTransactions l = .error .unsupportedShape) := by
  induction l with
  | nil => exact .inl ⟨rfl, rfl⟩
  | cons t ts ih =>
    by_cases hb : isBuyOnly t = true
    · have hs := not_sellOnly_of_buyOnly t hb
      rcases ih with ⟨ha, hsep⟩ | ⟨ha, hsep⟩
      · exact .inl ⟨by simp [ha, hb],
          by simp [separateBuyFromSellTransactions, hb, hs, hsep,
            List.filter_cons]⟩
      · exact .inr ⟨by simp [ha, hb],
          by simp [separateBuyFromSellTransactions, hb, hsep]⟩
    · by_cases hsl : isSellOnly t = true
      · rcases ih with ⟨ha, hsep⟩ | ⟨ha, hsep⟩
        · refine .inl ⟨by simp [ha, hsl], ?_⟩
          simp only [Bool.not_eq_true] at hb
          simp [separateBuyFromSellTransactions, hb, hsl, hsep,
            List.filter_cons]
        · refine .inr ⟨by simp [ha, hsl], ?_⟩
          simp only [Bool.not_eq_true] at hb
          simp [separateBuyFromSellTransactions, hb, hsl, hsep]
      · simp only [Bool.not_eq_true] at hb hsl
        refine .inr ⟨by simp [hb, hsl], ?_⟩
        simp [separateBuyFromSellTransactions, hb, hsl]

/-- Once the three preliminary steps succeed, `convertToTrades` is the shape
dispatch on the separated lists. -/
lemma convertToTrades_eq_of_components (l : List TokenTaxTransaction)
    (fa : ℚ) (fc : String) (B S : List TokenTaxTransaction)
    (hfe : findFeesFromTransactionList l = .ok (fa, fc))
    (hco : commonElementsConsistent l = true)
    (hsep : separateBuyFromSellTransactions l = .ok (B, S)) :
    convertToTrades l = convertSeparatedToTrades l fa fc B S := by
  simp [convertToTrades, ensureCommonElementsAreIdenticalInTransactionList,
    hfe, hco, hsep]

/-- C6 counterexample: a group with two buy-only records, each carrying a
nonzero USD equivalent, and one sell-only record is converted successfully —
no `AmbiguousSourceError` is raised although two records supply a
USD-equivalent source, because the many-buys/one-sell branch never consults
the USD lookup. -/
theorem claim6_counterexample :
    (∃ out,
        convertToTrades
          [buyRecord 1 "AAA" 5, buyRecord 2 "BBB" 7, sellRecord 8 "USD"]
          = Except.ok out)
      ∧ 2 ≤ (([buyRecord 1 "AAA" 5, buyRecord 2 "BBB" 7,
          sellRecord 8 "USD"]).filter usdSourcePred).length :=
  ⟨⟨_, rfl⟩, by decide⟩

/-- C6 (amended): `convertToTrades` raises `AmbiguousSourceError` whenever
more than one record supplies a fee source, and — only in the shapes with
exactly one buy-only record — whenever more than one supplies a
USD-equivalent source; it raises `InconsistentGroupError` when the shared
fields differ (and the fee check passed); it raises `UnsupportedShapeError`
when some record has both or neither leg, or when the buy-only/sell-only
split has an empty side or both sides larger than one; and it succeeds
exactly when fee sources are at most one, the shared fields agree, every
record is pure one-leg, and the shape is one-buy/many-sells with at most one
USD source, or many-buys/one-sell (where each trade takes its own buy
record's USD equivalent unchecked). -/
theorem claim6_convert_to_trades_error_characterisation
    (l : List TokenTaxTransaction) :
    (2 ≤ (l.filter feeSourcePred).length →
        convertToTrades l = .error .ambiguousSource)
    ∧ ((l.filter feeSourcePred).length ≤ 1 →
        commonElementsConsistent l = false →
        convertToTrades l = .error .inconsistentGroup)
    ∧ ((l.filter feeSourcePred).length ≤ 1 →
        commonElementsConsistent l = true →
        l.all (fun t => isBuyOnly t || isSellOnly t) = false →
        convertToTrades l = .error .unsupportedShape)
    ∧ ((l.filter feeSourcePred).length ≤ 1 →
        commonElementsConsistent l = true →
        l.all (fun t => isBuyOnly t || isSellOnly t) = true →
        (l.filter isBuyOnly).length = 1 → 1 ≤ (l.filter isSellOnly).length →
        2 ≤ (l.filter usdSourcePred).length →
        convertToTrades l = .error .ambiguousSource)
    ∧ ((l.filter feeSourcePred).length ≤ 1 →
        commonElementsConsistent l = true →
        l.all (fun t => isBuyOnly t || isSellOnly t) = true →
        ¬((l.filter isBuyOnly).length = 1 ∧ 1 ≤ (l.filter isSellOnly).length) →
        ¬(2 ≤ (l.filter isBuyOnly).length ∧ (l.filter isSellOnly).length = 1) →
        convertToTrades l = .error .unsupportedShape)
    ∧ ((∃ out, convertToTrades l = .ok out) ↔
        ((l.filter feeSourcePred).length ≤ 1
          ∧ commonElementsConsistent l = true
          ∧ l.all (fun t => isBuyOnly t || isSellOnly t) = true
          ∧ (((l.filter isBuyOnly).length = 1
                ∧ 1 ≤ (l.filter isSellOnly).length
                ∧ (l.filter usdSourcePred).length ≤ 1)
            ∨ (2 ≤ (l.filter isBuyOnly).length
                ∧ (l.filter isSellOnly).length = 1)))) := by
  have F1 : 2 ≤ (l.filter feeSourcePred).length →
      convertToTrades l = .error .ambiguousSource := by
    intro h
    simp [convertToTrades, findFees_error_of_two_le l h]
  have F2 : (l.filter feeSourcePred).length ≤ 1 →
      commonElementsConsistent l = false →
      convertToTrades l = .error .inconsistentGroup := by
    intro h1 h2
    obtain ⟨⟨fa, fc⟩, hfe⟩ := findFees_ok_of_le_one l h1
    simp [convertToTrades, hfe,
      ensureCommonElementsAreIdenticalInTransactionList, h2]
  have F3 : (l.filter feeSourcePred).length ≤ 1 →
      commonElementsConsistent l = true →
      l.all (fun t => isBuyOnly t || isSellOnly t) = false →
      convertToTrades l = .error .unsupportedShape := by
    intro h1 h2 h3
    obtain ⟨⟨fa, fc⟩, hfe⟩ := findFees_ok_of_le_one l h1
    rcases separateBuyFromSell_spec l with ⟨ha, _⟩ | ⟨_, hsep⟩
    · simp [ha] at h3
    · simp [convertToTrades, hfe,
        ensureCommonElementsAreIdenticalInTransactionList, h2, hsep]
  have F4 : (l.filter feeSourcePred).length ≤ 1 →
      commonElementsConsistent l = true →
      l.all (fun t => isBuyOnly t || isSellOnly t) = true →
      (l.filter isBuyOnly).length = 1 → 1 ≤ (l.filter isSellOnly).length →
      2 ≤ (l.filter usdSourcePred).length →
      convertToTrades l = .error .ambiguousSource := by
    intro h1 h2 h3 hb hs husd
    obtain ⟨⟨fa, fc⟩, hfe⟩ := findFees_ok_of_le_one l h1
    rcases separateBuyFromSell_spec l with ⟨_, hsep⟩ | ⟨ha, _⟩
    swap
    · simp [h3] at ha
    rw [convertToTrades_eq_of_components l fa fc _ _ hfe h2 hsep]
    rcases hB : l.filter isBuyOnly with _ | ⟨b, _ | ⟨b2, bs⟩⟩
    · exfalso
      rw [hB] at hb
      simp at hb
    · rcases hS : l.filter isSellOnly with _ | ⟨s, _ | ⟨s2, ss⟩⟩
      · exfalso
        rw [hS] at hs
        simp at hs
      · simp [convertSeparatedToTrades, findUsd_error_of_two_le l husd]
      · simp [convertSeparatedToTrades, findUsd_error_of_two_le l husd]
    · exfalso
      rw [hB] at hb
      simp only [List.length_cons, List.length_nil] at hb
      omega
  have F5 : (l.filter feeSourcePred).length ≤ 1 →
      commonElementsConsistent l = true →
      l.all (fun t => isBuyOnly t || isSellOnly t) = true →
      ¬((l.filter isBuyOnly).length = 1 ∧ 1 ≤ (l.filter isSellOnly).length) →
      ¬(2 ≤ (l.filter isBuyOnly).length ∧ (l.filter isSellOnly).length = 1) →
      convertToTrades l = .error .unsupportedShape := by
    intro h1 h2 h3 hn1 hn2
    obtain ⟨⟨fa, fc⟩, hfe⟩ := findFees_ok_of_le_one l h1
    rcases separateBuyFromSell_spec l with ⟨_, hsep⟩ | ⟨ha, _⟩
    swap
    · simp [h3] at ha
    rw [convertToTrades_eq_of_components l fa fc _ _ hfe h2 hsep]
    rcases hB : l.filter isBuyOnly with _ | ⟨b, _ | ⟨b2, bs⟩⟩
    · rcases hS : l.filter isSellOnly with _ | ⟨s, _ | ⟨s2, ss⟩⟩ <;> rfl
    · rcases hS : l.filter isSellOnly with _ | ⟨s, _ | ⟨s2, ss⟩⟩
      · rfl
      · exfalso
        exact hn1 ⟨by simp [hB], by simp [hS]⟩
      · exfalso
        refine hn1 ⟨by simp [hB], ?_⟩
        rw [hS]
        simp
    · rcases hS : l.filter isSellOnly with _ | ⟨s, _ | ⟨s2, ss⟩⟩
      · rfl
      · exfalso
        refine hn2 ⟨?_, by simp [hS]⟩
        rw [hB]
        simp only [List.length_cons]
        omega
      · rfl
  refine ⟨F1, F2, F3, F4, F5, ?_⟩
  constructor
  · rintro ⟨out, hout⟩
    by_cases h1 : 2 ≤ (l.filter feeSourcePred).length
    · rw [F1 h1] at hout
      simp at hout
    have h1' : (l.filter feeSourcePred).length ≤ 1 := by omega
    cases h2 : commonElementsConsistent l
    · rw [F2 h1' h2] at hout
      simp at hout
    cases h3 : l.all (fun t => isBuyOnly t || isSellOnly t)
    · rw [F3 h1' h2 h3] at hout
      simp at hout
    refine ⟨h1', rfl, rfl, ?_⟩
    by_cases hs1 : (l.filter isBuyOnly).length = 1
        ∧ 1 ≤ (l.filter isSellOnly).length
    · left
      refine ⟨hs1.1, hs1.2, ?_⟩
      by_contra husd
      rw [F4 h1' h2 h3 hs1.1 hs1.2 (by omega)] at hout
      simp at hout
    · by_cases hs2 : 2 ≤ (l.filter isBuyOnly).length
          ∧ (l.filter isSellOnly).length = 1
      · exact .inr hs2
      · rw [F5 h1' h2 h3 hs1 hs2] at hout
        simp at hout
  · rintro ⟨h1, h2, h3, hshape⟩
    obtain ⟨⟨fa, fc⟩, hfe⟩ := findFees_ok_of_le_one l h1
    rcases separateBuyFromSell_spec l with ⟨_, hsep⟩ | ⟨ha, _⟩
    swap
    · simp [h3] at ha
    rw [convertToTrades_eq_of_components l fa fc _ _ hfe h2 hsep]
    rcases hshape with ⟨hb, hs, husd⟩ | ⟨hb, hs⟩
    · obtain ⟨u, hu⟩ := findUsd_ok_of_le_one l husd
      rcases hB : l.filter isBuyOnly with _ | ⟨b, _ | ⟨b2, bs⟩⟩
      · exfalso
        rw [hB] at hb
        simp at hb
      · rcases hS : l.filter isSellOnly with _ | ⟨s, _ | ⟨s2, ss⟩⟩
        · exfalso
          rw [hS] at hs
          simp at hs
        · exact ⟨[mkTradeFromPair b s fa fc u],
            by simp [convertSeparatedToTrades, hu]⟩
        · exact ⟨(s :: s2 :: ss).map
              (mkSplitBuyTrade b fc
                (decimalDivide b.buy_amount (s :: s2 :: ss).length)
                (decimalDivide fa (s :: s2 :: ss).length)
                (decimalDivide u (s :: s2 :: ss).length)),
            by simp [convertSeparatedToTrades, hu]⟩
      · exfalso
        rw [hB] at hb
        simp only [List.length_cons, List.length_nil] at hb
        omega
    · rcases hB : l.filter isBuyOnly with _ | ⟨b, _ | ⟨b2, bs⟩⟩
      · exfalso
        rw [hB] at hb
        simp at hb
      · exfalso
        rw [hB] at hb
        simp at hb
      · rcases hS : l.filter isSellOnly with _ | ⟨s, _ | ⟨s2, ss⟩⟩
        · exfalso
          rw [hS] at hs
          simp at hs
        · exact ⟨_, rfl⟩
        · exfalso
          rw [hS] at hs
          simp only [List.length_cons, List.length_nil] at hs
          omega

/-- C6 witness: two fee sources in one group make the conversion fail with
the ambiguous-source error. -/
theorem claim6_witness :
    convertToTrades [feeRecord, feeRecord]
      = Except.error EngineError.ambiguousSource :=
  (claim6_convert_to_trades_error_characterisation [feeRecord, feeRecord]).1
    (by decide)

/-- Summing one rational-valued projection over a map whose image is constant
under that projection gives length times the constant. -/
lemma sum_map_proj_const (g : TokenTaxTransaction → ℚ)
    (f : TokenTaxTransaction → TokenTaxTransaction) (x : ℚ)
    (hf : ∀ t, g (f t) = x) (ts : List TokenTaxTransaction) :
    ((ts.map f).map g).sum = (ts.length : ℚ) * x := by
  induction ts with
  | nil => simp
  | cons t ts ih =>
    simp only [List.map_cons, List.sum_cons, hf, ih, List.length_cons]
    push_cast
    ring

/-- C5 (amended): in the one-buy/many-sells branch every emitted Trade
carries `decimalDivide` of the original buy amount (and fee and USD
equivalent) by the number of sells, and the emitted buy amounts sum to
`n · decimalDivide(buy, n)` — which equals the original amount exactly only
when the 28-digit decimal division is exact; symmetrically for
many-buys/one-sell, where the sell amount and fee are divided and the USD
equivalent is each buy record's own. -/
theorem claim5_fan_out_split (l : List TokenTaxTransaction) (fa u : ℚ)
    (fc : String) (b s0 s1 s : TokenTaxTransaction)
    (srest : List TokenTaxTransaction) (b0 b1 : TokenTaxTransaction)
    (brest : List TokenTaxTransaction) :
    (findFeesFromTransactionList l = .ok (fa, fc) →
      commonElementsConsistent l = true →
      separateBuyFromSellTransactions l = .ok ([b], s0 :: s1 :: srest) →
      findUsdEquivalentFromTransactionList l = .ok u →
      convertToTrades l
          = .ok ((s0 :: s1 :: srest).map
              (mkSplitBuyTrade b fc
                (decimalDivide b.buy_amount (s0 :: s1 :: srest).length)
                (decimalDivide fa (s0 :: s1 :: srest).length)
                (decimalDivide u (s0 :: s1 :: srest).length)))
        ∧ (((s0 :: s1 :: srest).map
              (mkSplitBuyTrade b fc
                (decimalDivide b.buy_amount (s0 :: s1 :: srest).length)
                (decimalDivide fa (s0 :: s1 :: srest).length)
                (decimalDivide u (s0 :: s1 :: srest).length))).map
            (fun r => r.buy_amount)).sum
          = ((s0 :: s1 :: srest).length : ℚ)
              * decimalDivide b.buy_amount (s0 :: s1 :: srest).length)
    ∧ (findFeesFromTransactionList l = .ok (fa, fc) →
      commonElementsConsistent l = true →
      separateBuyFromSellTransactions l = .ok (b0 :: b1 :: brest, [s]) →
      convertToTrades l
          = .ok ((b0 :: b1 :: brest).map
              (mkSplitSellTrade s fc
                (decimalDivide s.sell_amount (b0 :: b1 :: brest).length)
                (decimalDivide fa (b0 :: b1 :: brest).length)))
        ∧ (((b0 :: b1 :: brest).map
              (mkSplitSellTrade s fc
                (decimalDivide s.sell_amount (b0 :: b1 :: brest).length)
                (decimalDivide fa (b0 :: b1 :: brest).length))).map
            (fun r => r.sell_amount)).sum
          = ((b0 :: b1 :: brest).length : ℚ)
              * decimalDivide s.sell_amount (b0 :: b1 :: brest).length) := by
  constructor
  · intro hfe hco hsep hu
    constructor
    · rw [convertToTrades_eq_of_components l fa fc _ _ hfe hco hsep]
      simp [convertSeparatedToTrades, hu]
    · exact sum_map_proj_const (fun r => r.buy_amount)
        (mkSplitBuyTrade b fc
          (decimalDivide b.buy_amount (s0 :: s1 :: srest).length)
          (decimalDivide fa (s0 :: s1 :: srest).length)
          (decimalDivide u (s0 :: s1 :: srest).length))
        (decimalDivide b.buy_amount (s0 :: s1 :: srest).length)
        (fun t => rfl) (s0 :: s1 :: srest)
  · intro hfe hco hsep
    constructor
    · rw [convertToTrades_eq_of_components l fa fc _ _ hfe hco hsep]
      simp [convertSeparatedToTrades]
    · exact sum_map_proj_const (fun r => r.sell_amount)
        (mkSplitSellTrade s fc
          (decimalDivide s.sell_amount (b0 :: b1 :: brest).length)
          (decimalDivide fa (b0 :: b1 :: brest).length))
        (decimalDivide s.sell_amount (b0 :: b1 :: brest).length)
        (fun t => rfl) (b0 :: b1 :: brest)

/-- C5 counterexample: the conversion succeeds, emits three Trades, but the
emitted buy amounts sum to 0.9999999999999999999999999999, not to the
original buy amount 1 — decimal division by three rounds. -/
theorem claim5_counterexample :
    ∃ out, convertToTrades claim5CexGroup = Except.ok out
      ∧ out.length = 3
      ∧ (claim5CexGroup.filter isBuyOnly).map (fun r => r.buy_amount) = [1]
      ∧ (out.map (fun r => r.buy_amount)).sum ≠ 1 :=
  ⟨_, rfl, by decide, by decide, by decide⟩

/-- C5 witness: on the concrete group the fan-out theorem applies, and there
the division is exact, so the split buy amounts sum back to 9. -/
theorem claim5_witness :
    convertToTrades claim5WitnessGroup = Except.ok claim5WitnessOutput
      ∧ ((claim5WitnessOutput).map (fun r => r.buy_amount)).sum = 9 := by
  have h := (claim5_fan_out_split claim5WitnessGroup 0 0 ""
    (buyRecord 9 "USD" 0) (sellRecord 3 "TOK1") (sellRecord 3 "TOK2")
    baseTransaction [] baseTransaction baseTransaction []).1
    rfl (by decide) rfl rfl
  exact ⟨h.1, by decide⟩

/-- Removing the first found matching pattern coincides with greedy
consumption: `list.remove` deletes the first element equal to the found one,
but any earlier equal element would itself have matched first. -/
lemma removeTransaction_eq_greedyConsume (t : TokenTaxTransaction) :
    ∀ ps, removeTransactionFromTxPatternList t ps = greedyConsume t ps := by
  intro ps
  induction ps with
  | nil => rfl
  | cons p ps ih =>
    by_cases hp : compareTokentaxTransactionToAlterationTxPattern t p = true
    · unfold removeTransactionFromTxPatternList greedyConsume
      rw [List.find?_cons_of_pos _ hp]
      simp [hp, removeFirstEqual]
    · have hp' : compareTokentaxTransactionToAlterationTxPattern t p = false := by
        simpa using hp
      unfold removeTransactionFromTxPatternList greedyConsume
      rw [List.find?_cons_of_neg _ (by simp [hp'])]
      rw [if_neg (by simp [hp'])]
      rcases hf : List.find?
          (fun q => compareTokentaxTransactionToAlterationTxPattern t q) ps
        with _ | q
      · have hg : greedyConsume t ps = none := by
          rw [← ih]
          unfold removeTransactionFromTxPatternList
          rw [hf]
        simp [hg]
      · have hq : compareTokentaxTransactionToAlterationTxPattern t q = true := by
          simpa using List.find?_some hf
        have hpq : ¬(p = q) := by
          intro h
          rw [h, hq] at hp'
          cases hp'
        have hg : greedyConsume t ps = some (removeFirstEqual q ps) := by
          rw [← ih]
          unfold removeTransactionFromTxPatternList
          rw [hf]
        simp [hg, removeFirstEqual, hpq]

/-- C3 (confirmed): the group match of the source equals the greedy
first-fit policy of the specification; the caller's pattern list is
untouched, reflected by the source's deep copy and the embedding's purity. -/
theorem claim3_group_match_is_greedy_first_fit
    (transaction_list : List TokenTaxTransaction)
    (tx_patterns : List AlterationTransactionPattern) :
    allTransactionsInTxPatternList transaction_list tx_patterns
      = greedyGroupMatch transaction_list tx_patterns := by
  induction transaction_list generalizing tx_patterns with
  | nil => rfl
  | cons t ts ih =>
    unfold allTransactionsInTxPatternList greedyGroupMatch
    rw [removeTransaction_eq_greedyConsume]
    cases greedyConsume t tx_patterns
    · rfl
    · exact ih _

/-- The resolver loop returns the first applicable rule in document order. -/
lemma matchGo_eq_find (transaction_hash : String)
    (transaction_list : List TokenTaxTransaction) :
    ∀ alts : List Alteration,
      matchTransactionListToAlterationGo transaction_hash transaction_list alts
        = alts.find? (alterationApplies transaction_hash transaction_list) := by
  intro alts
  induction alts with
  | nil => rfl
  | cons a rest ih =>
    rcases ha : a.tx_hash with _ | ph
    · by_cases h2 : a.tx_patterns.length = transaction_list.length
          ∧ allTransactionsInTxPatternList transaction_list a.tx_patterns = true
      · rw [List.find?_cons_of_pos _
          (by simp [alterationApplies, ha, h2.1, h2.2])]
        unfold matchTransactionListToAlterationGo
        simp [ha, h2.1, h2.2]
      · rw [List.find?_cons_of_neg _ (by simp [alterationApplies, ha, h2])]
        unfold matchTransactionListToAlterationGo
        simp only [ha]
        rw [if_neg (by simp), if_neg (by simpa using h2)]
        exact ih
    · by_cases hph : ph = transaction_hash
      · subst hph
        by_cases h2 : a.tx_patterns.length = transaction_list.length
            ∧ allTransactionsInTxPatternList transaction_list a.tx_patterns
                = true
        · rw [List.find?_cons_of_pos _
            (by simp [alterationApplies, ha, h2.1, h2.2])]
          unfold matchTransactionListToAlterationGo
          simp [ha, h2.1, h2.2]
        · rw [List.find?_cons_of_neg _ (by simp [alterationApplies, ha, h2])]
          unfold matchTransactionListToAlterationGo
          simp only [ha]
          rw [if_neg (by simp), if_neg (by simpa using h2)]
          exact ih
      · rw [List.find?_cons_of_neg _ (by simp [alterationApplies, ha, hph])]
        unfold matchTransactionListToAlterationGo
        rw [if_pos (by simp [ha, hph])]
        exact ih

/-- C4 (confirmed): the resolver scans the rules in document order, skips a
rule whose pin is set and differs from the group hash or whose pattern count
differs from the group size, returns the first rule whose greedy group match
succeeds, and returns none when no rule remains; any returned rule therefore
satisfies all three conditions, so a group of size two can never resolve to a
one-pattern rule, and rules after the first hit are never consulted. -/
theorem claim4_resolver_first_match
    (alterations_mapping : AlterationsMapping) (transaction_hash : String)
    (transaction_list : List TokenTaxTransaction) :
    matchTransactionListToAlteration alterations_mapping transaction_hash
        transaction_list
      = alterations_mapping.alterations.find?
          (alterationApplies transaction_hash transaction_list)
    ∧ (∀ a,
        matchTransactionListToAlteration alterations_mapping transaction_hash
            transaction_list = some a →
          (a.tx_hash = none ∨ a.tx_hash = some transaction_hash)
            ∧ a.tx_patterns.length = transaction_list.length
            ∧ allTransactionsInTxPatternList transaction_list a.tx_patterns
                = true) := by
  have heq := matchGo_eq_find transaction_hash transaction_list
    alterations_mapping.alterations
  refine ⟨heq, ?_⟩
  intro a hmatch
  rw [matchTransactionListToAlteration] at hmatch
  rw [heq] at hmatch
  have := List.find?_some hmatch
  simpa [alterationApplies] using this

/-- C4 witness: on a one-record group the resolver returns the unpinned
one-pattern rule, which indeed satisfies the pin, length and match
conditions. -/
theorem claim4_witness :
    (depositPatternAlteration.tx_hash = none
        ∨ depositPatternAlteration.tx_hash = some "h1")
      ∧ depositPatternAlteration.tx_patterns.length
          = [baseTransaction].length
      ∧ allTransactionsInTxPatternList [baseTransaction]
          depositPatternAlteration.tx_patterns = true :=
  (claim4_resolver_first_match ⟨[depositPatternAlteration]⟩ "h1"
      [baseTransaction]).2 depositPatternAlteration rfl

/-- A successful summation loop computes the left fold of the signed,
per-step-rounded decimal accumulation over the records: buy amounts are
added and sell amounts subtracted, each step rounded to the context
precision. -/
lemma netMergeLoop_foldl :
    ∀ (ts : List TokenTaxTransaction) (acc net : ℚ),
      netMergeLoop ts acc = .ok net →
        net = ts.foldl
          (fun acc2 t =>
            if t.buy_amount ≠ 0 then decimalRound (acc2 + t.buy_amount)
            else if t.sell_amount ≠ 0 then decimalRound (acc2 - t.sell_amount)
            else acc2) acc := by
  intro ts
  induction ts with
  | nil =>
    intro acc net h
    unfold netMergeLoop at h
    cases h
    rfl
  | cons t ts ih =>
    intro acc net h
    unfold netMergeLoop at h
    by_cases h1 : t.buy_amount ≠ 0 ∧ t.sell_amount ≠ 0
    · rw [if_pos h1] at h
      simp at h
    · rw [if_neg h1] at h
      by_cases h2 : t.buy_amount ≠ 0
      · rw [if_pos h2] at h
        have hrec := ih _ _ h
        rw [hrec, List.foldl_cons]
        congr 1
        simp [h2]
      · rw [if_neg h2] at h
        by_cases h3 : t.sell_amount ≠ 0
        · rw [if_pos h3] at h
          have hrec := ih _ _ h
          rw [hrec, List.foldl_cons]
          congr 1
          simp [h2, h3]
        · rw [if_neg h3] at h
          have hrec := ih _ _ h
          rw [hrec, List.foldl_cons]
          congr 1
          simp [h2, h3]

/-- C8 counterexample, refuting the original claim at two concrete inputs.
First, a one-record group not touching the merge currency: the mergeable set
is empty, the code raises the no-mergeable error — not `EmptyMergeError`
although the signed sum over the (empty) mergeable set is zero — and the
non-touching record does not pass through.  Second, a group whose exact
signed sum is 1: the decimal accumulation rounds 1E+28 + 1 back to 1E+28,
the net cancels to zero and `EmptyMergeError` is raised instead of the
Deposit of 1 the exact-sum reading predicts. -/
theorem claim8_counterexample :
    mergeSameCurrency "XYZ" [buyRecord 1 "AAA" 0]
        = Except.error EngineError.noMergeable
      ∧ EngineError.noMergeable ≠ EngineError.emptyMerge
      ∧ (buyRecord 1 "AAA" 0).buy_currency ≠ "XYZ"
      ∧ (buyRecord 1 "AAA" 0).sell_currency ≠ "XYZ"
      ∧ mergeSameCurrency "XYZ" highPrecisionMergeGroup
          = Except.error EngineError.emptyMerge
      ∧ (highPrecisionMergeGroup.map
            (fun t => t.buy_amount - t.sell_amount)).sum = 1 :=
  ⟨rfl, by decide, by decide, by decide, rfl, by decide⟩

/-- C8 (amended): provided at least one record touches the token (an empty
mergeable set raises the distinct no-mergeable error) and the mergeable
records pass the fee/USD-uniqueness, shared-field and pure-leg checks, the
net is the signed decimal accumulation of the mergeable legs in list order —
buy amounts added, sell amounts subtracted, each step rounded to 28
significant digits half-even — which coincides with the exact signed sum
only while no intermediate result needs rounding; net zero raises
`EmptyMergeError` with nothing emitted, positive net emits exactly one
synthetic Deposit of the net after the unchanged non-touching records,
negative net likewise one synthetic Withdrawal of the absolute net. -/
theorem claim8_merge_same_currency (merge_currency : String)
    (l : List TokenTaxTransaction) (fa u net : ℚ) (fc : String)
    (m0 : TokenTaxTransaction) (mrest : List TokenTaxTransaction)
    (hm : l.filter (touchesCurrency merge_currency) = m0 :: mrest)
    (hfe : findFeesFromTransactionList (m0 :: mrest) = .ok (fa, fc))
    (hu : findUsdEquivalentFromTransactionList (m0 :: mrest) = .ok u)
    (hco : commonElementsConsistent (m0 :: mrest) = true)
    (hnet : netMergeLoop (m0 :: mrest) 0 = .ok net) :
    net = (m0 :: mrest).foldl
        (fun acc t =>
          if t.buy_amount ≠ 0 then decimalRound (acc + t.buy_amount)
          else if t.sell_amount ≠ 0 then decimalRound (acc - t.sell_amount)
          else acc) 0
    ∧ (net = 0 →
        mergeSameCurrency merge_currency l = .error .emptyMerge)
    ∧ (0 < net →
        mergeSameCurrency merge_currency l
          = .ok (l.filter (fun t => !(touchesCurrency merge_currency t))
              ++ [mkMergeDeposit merge_currency net fa fc u m0]))
    ∧ (net < 0 →
        mergeSameCurrency merge_currency l
          = .ok (l.filter (fun t => !(touchesCurrency merge_currency t))
              ++ [mkMergeWithdrawal merge_currency net fa fc u m0])) := by
  refine ⟨?_, ?_, ?_, ?_⟩
  · exact netMergeLoop_foldl _ 0 net hnet
  · intro h0
    subst h0
    simp [mergeSameCurrency, hm, hfe, hu, hco,
      ensureCommonElementsAreIdenticalInTransactionList, hnet]
  · intro hpos
    simp [mergeSameCurrency, hm, hfe, hu, hco,
      ensureCommonElementsAreIdenticalInTransactionList, hnet, hpos]
  · intro hneg
    have hnp : ¬(0 < net) := not_lt.mpr (le_of_lt hneg)
    simp [mergeSameCurrency, hm, hfe, hu, hco,
      ensureCommonElementsAreIdenticalInTransactionList, hnet, hnp, hneg]

/-- C8 witness: the merge of the concrete group nets to 6 and emits one
Deposit of 6 XYZ. -/
theorem claim8_witness :
    mergeSameCurrency "XYZ" claim8WitnessGroup
      = Except.ok
          (claim8WitnessGroup.filter (fun t => !(touchesCurrency "XYZ" t))
            ++ [mkMergeDeposit "XYZ" 6 0 "" 0 (buyRecord 10 "XYZ" 0)]) :=
  (claim8_merge_same_currency "XYZ" claim8WitnessGroup 0 0 6 ""
      (buyRecord 10 "XYZ" 0) [sellRecord 4 "XYZ"]
      rfl rfl rfl (by decide) rfl).2.2.1 (by decide)

/-- C9 counterexample: a group with buy-only records and no sell-only record
is not always silently accepted — the shared-field check still runs and
raises on inconsistent exchanges. -/
theorem claim9_counterexample :
    convertToMigrations inconsistentBuyPair
        = Except.error EngineError.inconsistentGroup
      ∧ inconsistentBuyPair.filter isNonTradeBuyOnly ≠ []
      ∧ inconsistentBuyPair.filter isNonTradeSellOnly = [] :=
  ⟨rfl, by decide, by decide⟩

/-- C9 (amended): provided the group passes the fee-uniqueness,
USD-uniqueness and shared-field checks (which run regardless of shape), a
group whose non-Trade records have no buy-only or no sell-only member — and
any non-Trade record with both or neither leg — is silently dropped: the
output is exactly the relabelled Trades; and with exactly one buy-only and
one sell-only member the single combined Migration is prepended. -/
theorem claim9_migrations_silent_omission (l : List TokenTaxTransaction)
    (fa u : ℚ) (fc : String)
    (hfe : findFeesFromTransactionList l = .ok (fa, fc))
    (hu : findUsdEquivalentFromTransactionList l = .ok u)
    (hco : commonElementsConsistent l = true) :
    ((l.filter isNonTradeBuyOnly = [] ∨ l.filter isNonTradeSellOnly = []) →
      convertToMigrations l
        = .ok ((l.filter isTradeType).map
            (fun t => { t with transaction_type := .migration })))
    ∧ (∀ b s, l.filter isNonTradeBuyOnly = [b] →
        l.filter isNonTradeSellOnly = [s] →
        convertToMigrations l
          = .ok (mkMigrationFromPair b s fa fc u
              :: (l.filter isTradeType).map
                  (fun t => { t with transaction_type := .migration }))) := by
  constructor
  · intro hshape
    rcases hshape with hB | hS
    · rcases hS : l.filter isNonTradeSellOnly with _ | ⟨s, ss⟩ <;>
        simp [convertToMigrations, hfe, hu, hco,
          ensureCommonElementsAreIdenticalInTransactionList, hB, hS]
    · rcases hB : l.filter isNonTradeBuyOnly with _ | ⟨b, _ | ⟨b2, bs⟩⟩ <;>
        simp [convertToMigrations, hfe, hu, hco,
          ensureCommonElementsAreIdenticalInTransactionList, hB, hS]
  · intro b s hB hS
    simp [convertToMigrations, hfe, hu, hco,
      ensureCommonElementsAreIdenticalInTransactionList, hB, hS]

/-- C9 witness: a lone non-Trade buy-only record is dropped without error,
leaving an empty output. -/
theorem claim9_witness :
    convertToMigrations [buyRecord 1 "AAA" 0]
      = Except.ok ((([buyRecord 1 "AAA" 0]).filter isTradeType).map
          (fun t => { t with transaction_type := .migration })) :=
  (claim9_migrations_silent_omission [buyRecord 1 "AAA" 0] 0 0 ""
      rfl rfl (by decide)).1 (Or.inr rfl)

/-- One engine step preserves the histogram partition: the input counter is
bumped once and exactly one of the other two counters is bumped at the same
size. -/
lemma processTransactionGroup_partition (m : AlterationsMapping)
    (st st2 : EngineState) (grp : String × List TokenTaxTransaction)
    (hinv : histogramsPartition st)
    (h : processTransactionGroup m st grp = .ok st2) :
    histogramsPartition st2 := by
  rcases hm : matchTransactionListToAlteration m grp.1 grp.2 with _ | alt
  · simp only [processTransactionGroup, hm] at h
    by_cases h1 : grp.2.length = 1
    · rw [if_pos h1] at h
      cases h
      intro s
      simp only [bumpCount]
      have hi := hinv grp.2.length
      by_cases hs : s = grp.2.length
      · simp [hs]
        omega
      · simp [hs, hinv s]
    · rw [if_neg h1] at h
      cases h
      intro s
      simp only [bumpCount]
      have hi := hinv grp.2.length
      by_cases hs : s = grp.2.length
      · simp [hs]
        omega
      · simp [hs, hinv s]
  · rcases ha : applyActions alt.actions grp.2 with e | modified
    · simp only [processTransactionGroup, hm, ha] at h
      simp at h
    · simp only [processTransactionGroup, hm, ha] at h
      cases h
      intro s
      simp only [bumpCount]
      have hi := hinv grp.2.length
      by_cases hs : s = grp.2.length
      · simp [hs]
        omega
      · simp [hs, hinv s]

/-- C10 (confirmed): at the end of every engine run that returns, the three
size-keyed histograms partition the input groups: at every size the input
count equals the unmatched count plus the output-accepted count, because
every group bumps the input counter once and then exactly one of the other
two. -/
theorem claim10_histograms_partition (m : AlterationsMapping)
    (groups : List (String × List TokenTaxTransaction)) (st : EngineState)
    (hrun : runEngine m groups = .ok st) (s : ℕ) :
    st.input_transaction_hash_count s
      = st.no_match_transaction_hash_count s
        + st.output_transaction_hash_count s := by
  suffices h : ∀ (gs : List (String × List TokenTaxTransaction))
      (st0 stf : EngineState), histogramsPartition st0 →
      runEngineFrom m gs st0 = .ok stf → histogramsPartition stf by
    exact h groups initialEngineState st (fun k => rfl) hrun s
  intro gs
  induction gs with
  | nil =>
    intro st0 stf h0 hr
    unfold runEngineFrom at hr
    cases hr
    exact h0
  | cons g rest ih =>
    intro st0 stf h0 hr
    unfold runEngineFrom at hr
    rcases hp : processTransactionGroup m st0 g with e | st1
    · rw [hp] at hr
      cases hr
    · rw [hp] at hr
      exact ih st1 stf
        (processTransactionGroup_partition m st0 st1 g h0 hp) hr

/-- C10 witness: a concrete run over one unmatched two-record group and one
passthrough single-record group satisfies the partition at size two. -/
theorem claim10_witness :
    ∃ st, runEngine ⟨[]⟩
        [("h1", [baseTransaction, baseTransaction]), ("h2", [baseTransaction])]
        = Except.ok st
      ∧ st.input_transaction_hash_count 2
          = st.no_match_transaction_hash_count 2
            + st.output_transaction_hash_count 2 :=
  ⟨_, rfl, claim10_histograms_partition ⟨[]⟩
    [("h1", [baseTransaction, baseTransaction]), ("h2", [baseTransaction])]
    _ rfl 2⟩

/-- C7 counterexample: a size-one group is altered by an unpinned
single-pattern rule — the record does not appear unchanged in the output
although no hash-pinned rule exists. -/
theorem claim7_counterexample :
    (runEngine stakingRuleMapping [("h1", [baseTransaction])]).map
        (fun st => st.output_transaction_list)
      = Except.ok [stakedBaseTransaction]
    ∧ stakedBaseTransaction ≠ baseTransaction
    ∧ stakingRuleMapping.alterations.all
        (fun a => decide (a.tx_hash = none)) = true :=
  ⟨rfl, by decide, rfl⟩

/-- C7 (amended): a size-one group passes through verbatim exactly when rule
resolution finds no rule for it — and the rules able to match it are the
single-pattern ones, pinned to its hash or unpinned, since any resolved rule
has as many patterns as the group has records. -/
theorem claim7_size_one_passthrough (m : AlterationsMapping)
    (transaction_hash : String) (r : TokenTaxTransaction)
    (st : EngineState) :
    (matchTransactionListToAlteration m transaction_hash [r] = none →
      processTransactionGroup m st (transaction_hash, [r])
        = .ok { st with
            output_transaction_list := st.output_transaction_list ++ [r]
            input_transaction_hash_count :=
              bumpCount st.input_transaction_hash_count 1
            output_transaction_hash_count :=
              bumpCount st.output_transaction_hash_count 1 })
    ∧ (∀ a, matchTransactionListToAlteration m transaction_hash [r] = some a →
        a.tx_patterns.length = 1) := by
  constructor
  · intro hm
    simp [processTransactionGroup, hm]
  · intro a hma
    rw [matchTransactionListToAlteration,
      matchGo_eq_find transaction_hash [r] m.alterations] at hma
    have hp := List.find?_some hma
    simp [alterationApplies] at hp
    exact hp.2.1

/-- C7 witness: with an empty rule document no rule resolves, and a one-record
group is emitted verbatim with both counters bumped at size one. -/
theorem claim7_witness :
    processTransactionGroup ⟨[]⟩ initialEngineState ("h1", [baseTransaction])
      = Except.ok { initialEngineState with
          output_transaction_list :=
            initialEngineState.output_transaction_list ++ [baseTransaction]
          input_transaction_hash_count :=
            bumpCount initialEngineState.input_transaction_hash_count 1
          output_transaction_hash_count :=
            bumpCount initialEngineState.output_transaction_hash_count 1 } :=
  (claim7_size_one_passthrough ⟨[]⟩ "h1" baseTransaction
      initialEngineState).1 rfl
